import Mathlib

/-!
Shallow embedding of `gerrit_projects/projects.py` (kincl/gerrit-project-manager).

Each definition below translates one piece of decision logic of the source
file: shell-environment handling in `run_command`, the retry loops of
`fetch_config`, the three-way decision of `make_local_copy`, the ACL session
of `process_acls`, group resolution in `get_group_uuid` and
`create_groups_file`, the ACL/description dispatch and the per-project batch
loop of `main`.  External collaborators (git, the filesystem, the Gerrit SSH
API) enter as explicit oracle parameters that record their observable replies;
everything the source decides itself is computed, not assumed.
-/

/-- Truthiness of an optional string, as Python evaluates tests such as
`if project["upstream"]:` (both `None` and the empty string are falsy). -/
def optTruthy : Option String → Bool
  | none => false
  | some s => s != ""

/-- One `dict` style assignment into an association-list environment: set key
`k` to `v`, overwriting an existing binding, appending otherwise.  This is the
effect of a single key of `newenv.update(env)` in `run_command`. -/
def envSet (e : List (String × String)) (k v : String) : List (String × String) :=
  if e.any (fun p => p.1 == k) then
    e.map (fun p => if p.1 == k then (k, v) else p)
  else e ++ [(k, v)]

/-- Effect of `newenv.update(env)` in `run_command`: fold every overlay
binding into the environment. -/
def envUpdate (e overlay : List (String × String)) : List (String × String) :=
  overlay.foldl (fun acc p => envSet acc p.1 p.2) e

/-- Ambient process environment after one `run_command(cmd, env=overlay)`
call.  The source executes `newenv = os.environ` (an alias of the ambient
environment, not a copy) followed by `newenv.update(env)`, so the overlay is
merged into `os.environ` itself and survives the call. -/
def run_command_ambient_after (ambient overlay : List (String × String)) :
    List (String × String) :=
  envUpdate ambient overlay

/-- Oracle replies of the external commands issued by `fetch_config`:
`fetchMeta x` is the exit status of the x-th `git fetch` of the metadata ref,
`remoteUpdate x` the status of the x-th `git remote update --prune`,
`lsFiles x` the status and output of the x-th `git ls-files` probe, and
`checkoutStatus` the status of the final `git checkout -b config`. -/
structure FetchWorld where
  fetchMeta : Nat → Int
  remoteUpdate : Nat → Int
  lsFiles : Nat → Int × String
  checkoutStatus : Int

/-- Value of the `status` variable after the metadata-ref retry loop
`for x in range(10)` of `fetch_config`, started at attempt `x` with `m`
further attempts allowed: attempt `x` runs the fetch command; on status 0 the
loop breaks, otherwise the loop sleeps and retries. -/
def fetchPoll (f : Nat → Int) (x : Nat) : Nat → Int
  | 0 => f x
  | m + 1 => if f x = 0 then f x else fetchPoll f (x + 1) m

/-- Sleep durations (seconds) executed inside the metadata-ref retry loop:
the source runs `time.sleep(2)` after every failed attempt. -/
def fetchMetaSleeps (f : Nat → Int) (x : Nat) : Nat → List Nat
  | 0 => if f x = 0 then [] else [2]
  | m + 1 => if f x = 0 then [] else 2 :: fetchMetaSleeps f (x + 1) m

/-- Values of the `(status, output)` pair after the `project.config` polling
loop of `fetch_config` (the second `for x in range(10)` loop): a failed
`remote update` keeps the previous output, a successful one probes with
`ls-files` and breaks once the probe prints `project.config` with status 0. -/
def configPoll (w : FetchWorld) (x : Nat) (status : Int) (output : String) :
    Nat → Int × String
  | 0 => (status, output)
  | m + 1 =>
    if w.remoteUpdate x ≠ 0 then configPoll w (x + 1) (w.remoteUpdate x) output m
    else
      if (w.lsFiles x).2.trim ≠ "project.config" ∨ (w.lsFiles x).1 ≠ 0 then
        configPoll w (x + 1) (w.lsFiles x).1 (w.lsFiles x).2 m
      else w.lsFiles x

/-- Guard of `fetch_config` that raised `FetchConfigException`, when one did:
the metadata-ref retry loop, the `project.config` probe loop, or the final
checkout of the `config` branch. -/
inductive FetchStep where
  | metaFetch
  | configFind
  | checkoutStep
deriving DecidableEq

/-- Translation of `fetch_config`: poll the metadata ref up to 10 times,
then poll for `project.config` up to 10 times, then check out the `config`
branch; each guard raises `FetchConfigException` exactly as in the source. -/
def fetch_config (w : FetchWorld) : Except FetchStep Unit :=
  if fetchPoll w.fetchMeta 0 9 ≠ 0 then Except.error FetchStep.metaFetch
  else
    if (configPoll w 0 0 ("") 10).2.trim ≠ "project.config" ∨
        (configPoll w 0 0 ("") 10).1 ≠ 0 then Except.error FetchStep.configFind
    else if w.checkoutStatus ≠ 0 then Except.error FetchStep.checkoutStep
    else Except.ok ()

lemma fetchPoll_eq_zero_iff (f : Nat → Int) :
    ∀ m x, fetchPoll f x m = 0 ↔ ∃ i, i ≤ m ∧ f (x + i) = 0 := by
  intro m
  induction m with
  | zero =>
    intro x
    constructor
    · intro h; exact ⟨0, Nat.le_refl 0, by simpa [fetchPoll] using h⟩
    · rintro ⟨i, hi, hf⟩
      have : i = 0 := Nat.le_zero.mp hi
      subst this
      simpa [fetchPoll] using hf
  | succ m ih =>
    intro x
    by_cases h : f x = 0
    · simp only [fetchPoll, h, if_pos]
      constructor
      · intro _; exact ⟨0, Nat.zero_le _, by simpa using h⟩
      · intro _; trivial
    · simp only [fetchPoll, h, if_neg, if_false]
      rw [ih (x + 1)]
      constructor
      · rintro ⟨i, hi, hf⟩
        exact ⟨i + 1, by omega, by rw [show x + (i + 1) = x + 1 + i by omega]; exact hf⟩
      · rintro ⟨i, hi, hf⟩
        match i with
        | 0 => exact absurd (by simpa using hf) h
        | j + 1 =>
          exact ⟨j, by omega, by rw [show x + 1 + j = x + (j + 1) by omega]; exact hf⟩

lemma fetchMetaSleeps_all_two (f : Nat → Int) :
    ∀ m x d, d ∈ fetchMetaSleeps f x m → d = 2 := by
  intro m
  induction m with
  | zero =>
    intro x d hd
    by_cases h : f x = 0 <;> simp [fetchMetaSleeps, h] at hd
    exact hd
  | succ m ih =>
    intro x d hd
    by_cases h : f x = 0
    · simp [fetchMetaSleeps, h] at hd
    · simp [fetchMetaSleeps, h] at hd
      rcases hd with hd | hd
      · exact hd
      · exact ih (x + 1) d hd

/-- C2: the metadata-ref fetch step of `fetch_config` raises its
fetch-failure exactly when all 10 fetch attempts return a non-zero status; a
success on any attempt up to the 10th means the step does not raise and the
function proceeds, and every delay slept between failed attempts is the fixed
2 seconds. -/
theorem meta_fetch_retry_iff (w : FetchWorld) :
    (fetch_config w = Except.error FetchStep.metaFetch ↔
      ∀ i < 10, w.fetchMeta i ≠ 0) ∧
    ((∃ i < 10, w.fetchMeta i = 0) →
      fetch_config w ≠ Except.error FetchStep.metaFetch) ∧
    (∀ d ∈ fetchMetaSleeps w.fetchMeta 0 9, d = 2) := by
  have key : fetch_config w = Except.error FetchStep.metaFetch ↔
      fetchPoll w.fetchMeta 0 9 ≠ 0 := by
    by_cases h : fetchPoll w.fetchMeta 0 9 ≠ 0
    · constructor
      · intro _; exact h
      · intro _; unfold fetch_config; rw [if_pos h]
    · constructor
      · intro he
        exfalso
        unfold fetch_config at he
        rw [if_neg h] at he
        split at he
        · exact FetchStep.noConfusion (Except.error.inj he)
        · split at he
          · exact FetchStep.noConfusion (Except.error.inj he)
          · exact Except.noConfusion he
      · intro hn; exact absurd hn h
  have idx : fetchPoll w.fetchMeta 0 9 ≠ 0 ↔ ∀ i < 10, w.fetchMeta i ≠ 0 := by
    rw [Ne, fetchPoll_eq_zero_iff w.fetchMeta 9 0]
    push_neg
    constructor
    · intro h i hi
      have := h i (by omega)
      simpa using this
    · intro h i hi
      simpa using h i (by omega)
  refine ⟨key.trans idx, ?_, fun d hd => fetchMetaSleeps_all_two w.fetchMeta 9 0 d hd⟩
  rintro ⟨i, hi, hf⟩ hcontra
  exact ((key.trans idx).mp hcontra) i hi hf

/-- Concrete world in which the third metadata fetch attempt succeeds. -/
def fetchWorldThird : FetchWorld :=
  ⟨fun i => if i = 2 then 0 else 1, fun _ => 0, fun _ => (0, ("project.config")), 0⟩

theorem meta_fetch_retry_iff_witness :
    (∃ i < 10, fetchWorldThird.fetchMeta i = 0) ∧
    fetch_config fetchWorldThird ≠ Except.error FetchStep.metaFetch :=
  ⟨⟨2, by omega, by decide⟩,
    (meta_fetch_retry_iff fetchWorldThird).2.1 ⟨2, by omega, by decide⟩⟩

/-- C8: the environment overlay of `run_command` is merged into the ambient
process environment itself, because `newenv = os.environ` aliases it instead
of copying; after one call with the `GIT_SSH` overlay the ambient environment
has gained that binding, contradicting a single-invocation overlay. -/
theorem overlay_mutates_ambient_env :
    run_command_ambient_after [] [(("GIT_SSH"), ("/tmp/ssh-wrapper"))] =
      [(("GIT_SSH"), ("/tmp/ssh-wrapper"))] ∧
    ([(("GIT_SSH"), ("/tmp/ssh-wrapper"))] : List (String × String)) ≠ [] := by
  exact ⟨rfl, by decide⟩

/-- Commands the Local Copy Builder issues through the shell and the
Version-Control Adapter, one constructor per distinct command shape used by
`make_local_copy`. -/
inductive GitCmd where
  | clone (url path : String)
  | remoteAddF (remote url : String)
  | fetchRefs (remote refspec : String)
  | remoteRename (oldName newName : String)
  | remoteAdd (remote url : String)
  | gitInit (path : String)
  | writeGitreview (host : String) (port : Nat) (projectGit : String)
  | addFile (path : String)
  | commitAll (message author : String)
deriving DecidableEq

/-- Remote a git command transfers refs from, if any: `git clone` fetches
from the cloned URL, `git remote add -f` fetches from the newly added remote
right after adding it, and `git fetch` fetches from its remote; the other
commands move no refs from a remote. -/
def fetchesFrom : GitCmd → Option String
  | GitCmd.clone url _ => some url
  | GitCmd.remoteAddF _ url => some url
  | GitCmd.fetchRefs remote _ => some remote
  | _ => none

/-- Push action string returned by the upstream-import branch of
`make_local_copy`. -/
def pushCopyHeads : String := "push %s +refs/copy/heads/*:refs/heads/*"

/-- Push action string returned by the fresh-repository branch of
`make_local_copy`. -/
def pushMasterHead : String := "push %s HEAD:refs/heads/master"

/-- Observable result of `make_local_copy`: the returned push action (None or
a push string), which of the three branches ran, and the commands issued. -/
structure LocalCopyResult where
  pushString : Option String
  branchTaken : Nat
  trace : List GitCmd
deriving DecidableEq

/-- Translation of `make_local_copy`: first branch when Gerrit lists the
project and `refs/heads/master` is among its refs, second branch when the
declared upstream is truthy, third branch otherwise.  `projectList` is the
reply of `gerrit.listProjects()` and `serverRefs` the reply of
`gerrit.listProjectRefs(name)`. -/
def make_local_copy (name : String) (upstream : Option String)
    (remoteUrl repoPath : String) (projectList serverRefs : List String)
    (host : String) (port : Nat) (projectGit gitid : String) : LocalCopyResult :=
  if projectList.contains name && serverRefs.contains ("refs/heads/master") then
    { pushString := none
      branchTaken := 1
      trace :=
        GitCmd.clone remoteUrl repoPath ::
          (if optTruthy upstream then
            [GitCmd.remoteAddF ("upstream") (upstream.getD (""))]
          else []) }
  else if optTruthy upstream then
    { pushString := some pushCopyHeads
      branchTaken := 2
      trace := [GitCmd.clone (upstream.getD ("")) repoPath,
                GitCmd.fetchRefs ("origin") ("+refs/heads/*:refs/copy/heads/*"),
                GitCmd.remoteRename ("origin") ("upstream"),
                GitCmd.remoteAdd ("origin") remoteUrl] }
  else
    { pushString := some pushMasterHead
      branchTaken := 3
      trace := [GitCmd.gitInit repoPath,
                GitCmd.remoteAdd ("origin") remoteUrl,
                GitCmd.writeGitreview host port projectGit,
                GitCmd.addFile (".gitreview"),
                GitCmd.commitAll ("Added .gitreview") gitid] }

/-- Written from the spec sentences of C3: null action when the server knows
the project and has its master ref, the copy-heads republish action when the
server lacks the project and an upstream is configured, the initial-commit
action otherwise. -/
def specLocalCopyAction (serverKnows hasMaster upstreamSet : Bool) : Option String :=
  if serverKnows && hasMaster then none
  else if !serverKnows && upstreamSet then some pushCopyHeads
  else some pushMasterHead

/-- Amended decision of C3, matching the source: the copy-heads republish
action is returned whenever the first condition fails (server lacks the
project, or lacks its master ref) and an upstream is configured. -/
def amendedLocalCopyAction (serverKnows hasMaster upstreamSet : Bool) : Option String :=
  if serverKnows && hasMaster then none
  else if upstreamSet then some pushCopyHeads
  else some pushMasterHead

/-- C3 counterexample: for a project the server knows whose master ref is
absent, with an upstream configured, the code returns the copy-heads
republish action while the claimed decision tree returns the initial-commit
action. -/
theorem local_copy_branch2_counterexample :
    (make_local_copy ("p") (some ("https://example.org/u.git")) ("ssh://h:29418/p")
        ("/cache/p") [("p")] [] ("h") 29418 ("p.git") ("id")).pushString =
      some pushCopyHeads ∧
    ([("p")] : List String).contains ("p") = true ∧
    ([] : List String).contains ("refs/heads/master") = false ∧
    optTruthy (some ("https://example.org/u.git")) = true ∧
    specLocalCopyAction true false true = some pushMasterHead ∧
    some pushCopyHeads ≠ some pushMasterHead := by
  refine ⟨rfl, rfl, rfl, rfl, rfl, by decide⟩

/-- C3 amended: the returned push action of `make_local_copy` is null exactly
when the server knows the project and has its master ref, the copy-heads
republish action when that fails and an upstream is configured, and the
initial-commit action otherwise; exactly one of the three branches executes. -/
theorem local_copy_action_amended (name : String) (upstream : Option String)
    (remoteUrl repoPath : String) (projectList serverRefs : List String)
    (host : String) (port : Nat) (projectGit gitid : String) :
    (make_local_copy name upstream remoteUrl repoPath projectList serverRefs
        host port projectGit gitid).pushString =
      amendedLocalCopyAction (projectList.contains name)
        (serverRefs.contains ("refs/heads/master")) (optTruthy upstream) ∧
    ((make_local_copy name upstream remoteUrl repoPath projectList serverRefs
        host port projectGit gitid).branchTaken = 1 ↔
      (projectList.contains name && serverRefs.contains ("refs/heads/master")) = true) ∧
    ((make_local_copy name upstream remoteUrl repoPath projectList serverRefs
        host port projectGit gitid).branchTaken = 2 ↔
      ((projectList.contains name && serverRefs.contains ("refs/heads/master")) = false ∧
        optTruthy upstream = true)) ∧
    ((make_local_copy name upstream remoteUrl repoPath projectList serverRefs
        host port projectGit gitid).branchTaken = 3 ↔
      ((projectList.contains name && serverRefs.contains ("refs/heads/master")) = false ∧
        optTruthy upstream = false)) := by
  by_cases hm : name ∈ projectList <;>
    by_cases hr : ("refs/heads/master") ∈ serverRefs <;>
      cases hu : optTruthy upstream <;>
        simp [make_local_copy, amendedLocalCopyAction, hm, hr, hu]

/-- C9 counterexample: in the first branch (server knows the project and has
its master ref) with an upstream configured, the command issued is
`git remote add -f upstream <url>`, and the `-f` flag makes that command
fetch the upstream refs, so a fetch of upstream refs does occur in that
branch. -/
theorem upstream_register_fetches_counterexample :
    (make_local_copy ("p") (some ("https://example.org/u.git")) ("ssh://h:29418/p")
        ("/cache/p") [("p")] [("refs/heads/master")] ("h") 29418 ("p.git")
        ("id")).branchTaken = 1 ∧
    GitCmd.remoteAddF ("upstream") ("https://example.org/u.git") ∈
      (make_local_copy ("p") (some ("https://example.org/u.git")) ("ssh://h:29418/p")
        ("/cache/p") [("p")] [("refs/heads/master")] ("h") 29418 ("p.git")
        ("id")).trace ∧
    fetchesFrom (GitCmd.remoteAddF ("upstream") ("https://example.org/u.git")) =
      some ("https://example.org/u.git") := by
  refine ⟨rfl, ?_, rfl⟩
  decide

/-- C9 amended: in the first branch of `make_local_copy`, a configured
upstream is registered as a second remote named `upstream` by
`git remote add -f`, a command that fetches the upstream refs as part of the
registration; the branch issues exactly the server clone followed by that
fetching registration. -/
theorem upstream_register_amended (name u remoteUrl repoPath : String)
    (projectList serverRefs : List String) (host : String) (port : Nat)
    (projectGit gitid : String)
    (hknow : name ∈ projectList)
    (hmaster : ("refs/heads/master") ∈ serverRefs)
    (hu : u ≠ "") :
    (make_local_copy name (some u) remoteUrl repoPath projectList serverRefs
        host port projectGit gitid).trace =
      [GitCmd.clone remoteUrl repoPath, GitCmd.remoteAddF ("upstream") u] ∧
    fetchesFrom (GitCmd.remoteAddF ("upstream") u) = some u := by
  constructor
  · simp [make_local_copy, hknow, hmaster, optTruthy, hu]
  · rfl

theorem upstream_register_amended_witness :
    (make_local_copy ("p") (some ("u")) ("r") ("/c/p") [("p")]
        [("refs/heads/master")] ("h") 29418 ("p.git") ("id")).trace =
      [GitCmd.clone ("r") ("/c/p"), GitCmd.remoteAddF ("upstream") ("u")] ∧
    fetchesFrom (GitCmd.remoteAddF ("upstream") ("u")) = some ("u") :=
  upstream_register_amended ("p") ("u") ("r") ("/c/p") [("p")]
    [("refs/heads/master")] ("h") 29418 ("p.git") ("id")
    (by decide) (by decide) (by decide)

/-- Exception kinds caught by the `except Exception` of `process_acls`. -/
inductive AclExc where
  | fetchConfigExc
  | copyACLExc
  | createGroupExc
deriving DecidableEq

/-- Observable events of one `process_acls` session, in order: the body
steps that ran, the exception log entry if one was caught, and the three
cleanup commands of the `finally` block. -/
inductive AclEvent where
  | fetchMetaStep
  | copyAclStep
  | createGroupsStep
  | pushConfigStep
  | logExc (e : AclExc)
  | resetHard
  | checkoutMaster
  | deleteConfigBranch
deriving DecidableEq

/-- Oracle replies of the collaborators used inside `process_acls`:
the `fetch_config` world, the outcome of `copy_acl_config` (raises
`CopyACLException` or reports whether the working tree changed), the outcome
of `create_groups_file` (may raise `CreateGroupException`), and the boolean
result of `push_acl_config` (which never raises). -/
structure AclWorld where
  fetchW : FetchWorld
  copyChanged : Except Unit Bool
  groupsOutcome : Except Unit Unit
  pushOk : Bool

/-- Body of the `try` block of `process_acls`: the steps that execute and the
exception propagating out of the body, if any.  A `copy_acl_config` result of
`false` is the early `return` (nothing copied), which still runs `finally`. -/
def aclBody (w : AclWorld) : List AclEvent × Option AclExc :=
  match fetch_config w.fetchW with
  | Except.error _ => ([AclEvent.fetchMetaStep], some AclExc.fetchConfigExc)
  | Except.ok _ =>
    match w.copyChanged with
    | Except.error _ =>
      ([AclEvent.fetchMetaStep, AclEvent.copyAclStep], some AclExc.copyACLExc)
    | Except.ok false =>
      ([AclEvent.fetchMetaStep, AclEvent.copyAclStep], none)
    | Except.ok true =>
      match w.groupsOutcome with
      | Except.error _ =>
        ([AclEvent.fetchMetaStep, AclEvent.copyAclStep, AclEvent.createGroupsStep],
          some AclExc.createGroupExc)
      | Except.ok _ =>
        ([AclEvent.fetchMetaStep, AclEvent.copyAclStep, AclEvent.createGroupsStep,
          AclEvent.pushConfigStep], none)

/-- Translation of `process_acls`: return immediately when the template file
is absent from the policy directory; otherwise run the try body, log a caught
exception, and always run the `finally` cleanup (hard reset, checkout of
master, deletion of the temporary `config` branch). -/
def process_acls (templatePresent : Bool) (w : AclWorld) : List AclEvent :=
  if !templatePresent then []
  else
    (aclBody w).1 ++
      (match (aclBody w).2 with
        | some e => [AclEvent.logExc e]
        | none => []) ++
      [AclEvent.resetHard, AclEvent.checkoutMaster, AclEvent.deleteConfigBranch]

/-- C6: whenever an Access-Control Sync session starts (template present),
the trace of `process_acls` ends with the full cleanup sequence - hard
reset, return to master, deletion of the temporary `config` branch -
regardless of which body outcome (applied, unchanged, or any raised failure)
occurred. -/
theorem acl_cleanup_runs_on_every_path (w : AclWorld) :
    ∃ pre, process_acls true w =
      pre ++ [AclEvent.resetHard, AclEvent.checkoutMaster, AclEvent.deleteConfigBranch] := by
  refine ⟨(aclBody w).1 ++
    (match (aclBody w).2 with
      | some e => [AclEvent.logExc e]
      | none => []), ?_⟩
  simp [process_acls, List.append_assoc]

/-- Dispatch of step 7 of the per-project loop in `main` combined with the
guard of `process_acls`: `main` tests `os.path.exists(project["acl_config"])`
on the raw `acl_config` value (a path relative to the working directory of
the process), while `process_acls` separately tests
`os.path.isfile(os.path.join(ACL_DIR, project["acl_config"]))` and returns
before doing anything when that fails. -/
inductive AclAction where
  | syncStarted
  | syncNoop
  | descriptionUpdated
  | nothingDone
deriving DecidableEq

/-- Translation of lines 641-647 of `main` together with line 469 of
`process_acls`: which of the ACL sync, the no-op early return, or the direct
description update actually happens for a project. -/
def aclStep (aclConfig : String) (existsRawPath : Bool) (isfileInAclDir : Bool)
    (description : Option String) : AclAction :=
  if aclConfig != "" && existsRawPath then
    if isfileInAclDir then AclAction.syncStarted else AclAction.syncNoop
  else if optTruthy description then AclAction.descriptionUpdated
  else AclAction.nothingDone

/-- Written from the spec sentence of C4: invoke the sync engine exactly when
the template exists in the policy directory, otherwise apply a declared
description directly. -/
def specAclStep (templateInPolicyDir : Bool) (description : Option String) : AclAction :=
  if templateInPolicyDir then AclAction.syncStarted
  else if optTruthy description then AclAction.descriptionUpdated
  else AclAction.nothingDone

/-- C4: evaluation at the failing input.  For a project whose template exists
in the policy directory but whose raw `acl_config` path does not exist
relative to the process working directory, with a declared description, the
code updates the description directly and never starts the sync engine,
while the claim requires the sync engine to run. -/
theorem acl_dispatch_ignores_policy_dir :
    aclStep ("p.config") false true (some ("Example project")) =
      AclAction.descriptionUpdated ∧
    specAclStep true (some ("Example project")) = AclAction.syncStarted ∧
    AclAction.descriptionUpdated ≠ AclAction.syncStarted := by
  refine ⟨rfl, rfl, by decide⟩

/-- Python equality between the loop variable `project` (at the filter line it
is the dict built by `dict(name=section["project"])`) and a command-line
argument string: in Python a dict never compares equal to a str, so this is
constantly false. -/
def pyDictEqStr (_ : List (String × String)) (_ : String) : Bool := false

/-- One entry of `registry.configs_list` with the keys the loop reads. -/
structure ConfigSection where
  project : String
  options : List String
  description : Option String
  upstream : Option String
  aclConfig : Option String
deriving DecidableEq

/-- Filter at the top of the batch loop:
`if args.projects and project not in args.projects: continue`, where
`project` is the dict holding only the project name. -/
def projectFilterSkips (argsProjects : List String) (name : String) : Bool :=
  !argsProjects.isEmpty &&
    !(argsProjects.any (fun s => pyDictEqStr [(("name"), name)] s))

/-- Outcome of one iteration of the batch loop of `main`. -/
inductive ProjOutcome where
  | skippedFilter
  | skippedNoGerrit
  | processedOk
  | failedLogged (msg : String)
deriving DecidableEq

/-- One iteration of the batch loop of `main`: the subset filter, the
`no-gerrit` skip inside the `try`, then the remaining steps 2-7 (the `body`
oracle standing for server record creation, mirror creation, local copy
build or update, push, upstream sync, and policy or description update); a
raised exception is caught by the per-project `except Exception`, logged with
the project name ("Problems creating <name>, moving on."), and the loop
continues. -/
def processSection (argsProjects : List String)
    (body : ConfigSection → Except String Unit) (s : ConfigSection) : ProjOutcome :=
  if projectFilterSkips argsProjects s.project then ProjOutcome.skippedFilter
  else if s.options.contains ("no-gerrit") then ProjOutcome.skippedNoGerrit
  else
    match body s with
    | Except.ok _ => ProjOutcome.processedOk
    | Except.error e => ProjOutcome.failedLogged e

/-- The batch loop of `main` over all declared sections: each section yields
the outcome of its own iteration, tagged with its project name. -/
def mainProjectLoop (argsProjects : List String)
    (body : ConfigSection → Except String Unit) (sections : List ConfigSection) :
    List (String × ProjOutcome) :=
  sections.map (fun s => (s.project, processSection argsProjects body s))

/-- C1: a failure raised while processing a project is caught at the
per-project boundary and recorded against that project name, and the batch
result still contains one outcome per declared project in order - in
particular every project after the failing one is still processed and no
per-project error escapes the loop. -/
theorem per_project_failure_isolated (argsProjects : List String)
    (body : ConfigSection → Except String Unit) (pre post : List ConfigSection)
    (p : ConfigSection) (e : String) (hfail : body p = Except.error e)
    (hfilter : projectFilterSkips argsProjects p.project = false)
    (hgerrit : p.options.contains ("no-gerrit")  = false) :
    mainProjectLoop argsProjects body (pre ++ p :: post) =
      mainProjectLoop argsProjects body pre ++
        (p.project, ProjOutcome.failedLogged e) ::
          mainProjectLoop argsProjects body post ∧
    (mainProjectLoop argsProjects body (pre ++ p :: post)).map Prod.fst =
      (pre ++ p :: post).map ConfigSection.project := by
  have hg2 : ("no-gerrit") ∉ p.options := by simpa using hgerrit
  constructor
  · simp only [mainProjectLoop, List.map_append, List.map_cons]
    congr 1
    simp [processSection, hfail, hfilter, hg2]
  · simp only [mainProjectLoop, List.map_map]
    rfl

/-- Concrete section for the project named p. -/
def sectionP : ConfigSection := ⟨("p"), [], none, none, none⟩

/-- Concrete section for the project named q. -/
def sectionQ : ConfigSection := ⟨("q"), [], none, none, none⟩

/-- Concrete body oracle that raises only for the project named p. -/
def bodyFailP : ConfigSection → Except String Unit :=
  fun s => if s.project = ("p") then Except.error ("boom") else Except.ok ()

theorem per_project_failure_isolated_witness :
    mainProjectLoop [] bodyFailP ([] ++ sectionP :: [sectionQ]) =
      mainProjectLoop [] bodyFailP [] ++
        (sectionP.project, ProjOutcome.failedLogged ("boom")) ::
          mainProjectLoop [] bodyFailP [sectionQ] ∧
    (mainProjectLoop [] bodyFailP ([] ++ sectionP :: [sectionQ])).map Prod.fst =
      ([] ++ sectionP :: [sectionQ]).map ConfigSection.project :=
  per_project_failure_isolated [] bodyFailP [] [sectionQ] sectionP ("boom")
    (by simp [bodyFailP, sectionP]) (by decide) (by decide)

/-- C5: evaluation at the failing input.  With the explicit subset
["demo"] and a declared project named demo, the filter compares the project
dict (not its name) against the subset strings, so the membership test is
always false and the project is skipped even though its name is in the
subset; with the empty subset the same project is processed. -/
theorem subset_filter_drops_named_project :
    projectFilterSkips [("demo")] ("demo") = true ∧
    mainProjectLoop [("demo")] (fun _ => Except.ok ())
        [⟨("demo"), [], none, none, none⟩] =
      [(("demo"), ProjOutcome.skippedFilter)] ∧
    mainProjectLoop [] (fun _ => Except.ok ())
        [⟨("demo"), [], none, none, none⟩] =
      [(("demo"), ProjOutcome.processedOk)] := by
  refine ⟨rfl, rfl, rfl⟩

/-- ASCII whitespace class of the Python regex escape used in
`create_groups_file`. -/
def isPySpace (c : Char) : Bool :=
  c == ' ' || c == '\t' || c == '\n' || c == '\r' || c == '\x0b' || c == '\x0c'

/-- Drop the maximal run of whitespace characters (the greedy one-or-more
whitespace part of the pattern). -/
def dropPySpaces : List Char → List Char
  | [] => []
  | c :: cs => if isPySpace c then dropPySpaces cs else c :: cs

/-- Match the tail pattern - one whitespace, the literal word group, at least
one whitespace, then the captured rest of the line - at the current
position. -/
def groupMatchHere : List Char → Option (List Char)
  | c :: 'g' :: 'r' :: 'o' :: 'u' :: 'p' :: d :: rest =>
    if isPySpace c && isPySpace d then some (dropPySpaces rest) else none
  | _ => none

/-- Greedy search of the pattern: the leading greedy dot-star makes the regex
capture relative to the rightmost occurrence, so later positions are tried
first. -/
def groupMatchFrom : List Char → Option (List Char)
  | [] => none
  | c :: cs =>
    match groupMatchFrom cs with
    | some r => some r
    | none => groupMatchHere (c :: cs)

/-- Group name captured by the `re.match` call of `create_groups_file` on one
line of `project.config`, when the line matches. -/
def matchGroupLine (line : String) : Option String :=
  (groupMatchFrom line.data).map (fun cs => String.mk cs)

/-- Gerrit group API as seen by `get_group_uuid`: `getGroupUUID` is the reply
of a lookup before any creation, `afterCreate g` the reply of the second
lookup of `g` performed right after `createGroup(g)`. -/
structure GerritGroups where
  getGroupUUID : String → Option String
  afterCreate : String → Option String

/-- Result of one `get_group_uuid` call: the identifier (None when even the
post-creation lookup failed), the `createGroup` calls issued, and the
`getGroupUUID` calls issued. -/
structure GroupLookupResult where
  uuid : Option String
  creates : List String
  lookups : List String
deriving DecidableEq

/-- Translation of `get_group_uuid`: return an existing identifier, otherwise
create the group and look it up again. -/
def get_group_uuid (g : GerritGroups) (group : String) : GroupLookupResult :=
  match g.getGroupUUID group with
  | some u => ⟨some u, [], [group]⟩
  | none => ⟨g.afterCreate group, [group], [group, group]⟩

/-- State threaded through the group scan of `create_groups_file`: the
`uuids` dict in insertion order, all `createGroup` calls, all `getGroupUUID`
calls, the group names actually resolved (duplicates skipped), and whether
`CreateGroupException` was raised. -/
structure ResolveState where
  uuids : List (String × String)
  creates : List String
  lookups : List String
  resolutions : List String
  raised : Bool
deriving DecidableEq

/-- Membership test of the `if group in uuids.keys(): continue` guard. -/
def seenGroup (st : ResolveState) (k : String) : Bool :=
  st.uuids.any (fun p => p.1 == k)

/-- One iteration of the scanning loop of `create_groups_file` for an
extracted group reference: skip an already-resolved name, otherwise resolve
it through `get_group_uuid`, raising when no identifier could be obtained.
A raised exception makes the state absorbing, matching the loop abort. -/
def resolveStep (g : GerritGroups) (st : ResolveState) (group : String) : ResolveState :=
  if st.raised then st
  else if seenGroup st group then st
  else
    match get_group_uuid g group with
    | ⟨some u, cs, ls⟩ =>
      { uuids := st.uuids ++ [(group, u)]
        creates := st.creates ++ cs
        lookups := st.lookups ++ ls
        resolutions := st.resolutions ++ [group]
        raised := false }
    | ⟨none, cs, ls⟩ =>
      { uuids := st.uuids
        creates := st.creates ++ cs
        lookups := st.lookups ++ ls
        resolutions := st.resolutions ++ [group]
        raised := true }

/-- Scan of all extracted group references of the policy file. -/
def resolveGroups (g : GerritGroups) (refs : List String) : ResolveState :=
  refs.foldl (resolveStep g) ⟨[], [], [], [], false⟩

/-- Observable result of `create_groups_file`: the final scan state, the
written `groups` file content as (identifier, name) lines when one was
written, the status of `git add groups`, and whether the function raised
`CreateGroupException`. -/
structure GroupsFileResult where
  state : ResolveState
  fileWritten : Option (List (String × String))
  addStatus : Option Int
  raised : Bool
deriving DecidableEq

/-- Translation of `create_groups_file`: extract every `group` reference of
`project.config`, resolve each unique name, write the `groups` mapping file
only when at least one identifier was resolved, then run `git add groups`
and raise on a non-zero status.  `gitAddStatus` is the shell oracle giving
the status of `git add groups` as a function of whether a `groups` file is
present in the working tree (the standard git behaviour is status 0 exactly
when the path matches a file). -/
def create_groups_file (g : GerritGroups) (gitAddStatus : Bool → Int)
    (groupsFilePreexists : Bool) (aclLines : List String) : GroupsFileResult :=
  let st := resolveGroups g (aclLines.filterMap matchGroupLine)
  if st.raised then ⟨st, none, none, true⟩
  else
    let written := if st.uuids.isEmpty then none
      else some (st.uuids.map (fun p => (p.2, p.1)))
    let s := gitAddStatus (groupsFilePreexists || !st.uuids.isEmpty)
    ⟨st, written, some s, decide (s ≠ 0)⟩

/-- C10: for a policy file containing no `group` references, with no
pre-existing `groups` file and a `git add` that fails on the absent path,
`create_groups_file` writes no mapping file, performs no group lookup and no
group creation, and still raises `CreateGroupException` through the failed
`git add groups`. -/
theorem no_group_refs_still_raises (g : GerritGroups) (gitAddStatus : Bool → Int)
    (aclLines : List String)
    (hnone : aclLines.filterMap matchGroupLine = [])
    (hadd : gitAddStatus false ≠ 0) :
    (create_groups_file g gitAddStatus false aclLines).fileWritten = none ∧
    (create_groups_file g gitAddStatus false aclLines).state.lookups = [] ∧
    (create_groups_file g gitAddStatus false aclLines).state.creates = [] ∧
    (create_groups_file g gitAddStatus false aclLines).raised = true := by
  simp [create_groups_file, hnone, resolveGroups, hadd]

theorem no_group_refs_still_raises_witness :
    (create_groups_file ⟨fun _ => none, fun _ => none⟩ (fun b => if b then 0 else 1)
        false [("[access \"refs/*\"]"), ("owner = user alice")]).fileWritten = none ∧
    (create_groups_file ⟨fun _ => none, fun _ => none⟩ (fun b => if b then 0 else 1)
        false [("[access \"refs/*\"]"), ("owner = user alice")]).state.lookups = [] ∧
    (create_groups_file ⟨fun _ => none, fun _ => none⟩ (fun b => if b then 0 else 1)
        false [("[access \"refs/*\"]"), ("owner = user alice")]).state.creates = [] ∧
    (create_groups_file ⟨fun _ => none, fun _ => none⟩ (fun b => if b then 0 else 1)
        false [("[access \"refs/*\"]"), ("owner = user alice")]).raised = true :=
  no_group_refs_still_raises ⟨fun _ => none, fun _ => none⟩ (fun b => if b then 0 else 1)
    [("[access \"refs/*\"]"), ("owner = user alice")] (by decide) (by decide)

/-- Invariant of the group scan for a policy file that references exactly the
two distinct groups A and B, where A has an existing identifier idA and B
obtains idB only after creation: the five reachable states (nothing seen, A
seen, B seen, A then B, B then A). -/
def resolveInvAB (A idA B idB : String) (st : ResolveState) : Prop :=
  st = ⟨[], [], [], [], false⟩ ∨
  st = ⟨[(A, idA)], [], [A], [A], false⟩ ∨
  st = ⟨[(B, idB)], [B], [B, B], [B], false⟩ ∨
  st = ⟨[(A, idA), (B, idB)], [B], [A, B, B], [A, B], false⟩ ∨
  st = ⟨[(B, idB), (A, idA)], [B], [B, B, A], [B, A], false⟩

lemma resolveStep_invAB (g : GerritGroups) (A idA B idB : String) (hAB : A ≠ B)
    (hA : g.getGroupUUID A = some idA) (hB : g.getGroupUUID B = none)
    (hB2 : g.afterCreate B = some idB) (st : ResolveState)
    (hst : resolveInvAB A idA B idB st) (x : String) (hx : x = A ∨ x = B) :
    resolveInvAB A idA B idB (resolveStep g st x) ∧
    (seenGroup st A = true → seenGroup (resolveStep g st x) A = true) ∧
    (seenGroup st B = true → seenGroup (resolveStep g st x) B = true) ∧
    (x = A → seenGroup (resolveStep g st x) A = true) ∧
    (x = B → seenGroup (resolveStep g st x) B = true) := by
  have hBA : B ≠ A := hAB.symm
  rcases hx with rfl | rfl <;>
    rcases hst with rfl | rfl | rfl | rfl | rfl <;>
      simp [resolveInvAB, resolveStep, seenGroup, get_group_uuid, hA, hB, hB2, hAB, hBA]

lemma resolveFold_invAB (g : GerritGroups) (A idA B idB : String) (hAB : A ≠ B)
    (hA : g.getGroupUUID A = some idA) (hB : g.getGroupUUID B = none)
    (hB2 : g.afterCreate B = some idB) :
    ∀ refs : List String, (∀ x ∈ refs, x = A ∨ x = B) →
      ∀ st, resolveInvAB A idA B idB st →
        resolveInvAB A idA B idB (refs.foldl (resolveStep g) st) ∧
        ((A ∈ refs ∨ seenGroup st A = true) →
          seenGroup (refs.foldl (resolveStep g) st) A = true) ∧
        ((B ∈ refs ∨ seenGroup st B = true) →
          seenGroup (refs.foldl (resolveStep g) st) B = true) := by
  intro refs
  induction refs with
  | nil =>
    intro _ st hst
    refine ⟨hst, ?_, ?_⟩
    · rintro (h | h)
      · simp at h
      · simpa using h
    · rintro (h | h)
      · simp at h
      · simpa using h
  | cons x rest ih =>
    intro hall st hst
    have hx : x = A ∨ x = B := hall x (List.mem_cons_self x rest)
    have hstep := resolveStep_invAB g A idA B idB hAB hA hB hB2 st hst x hx
    have hrest : ∀ y ∈ rest, y = A ∨ y = B :=
      fun y hy => hall y (List.mem_cons_of_mem x hy)
    have ihr := ih hrest (resolveStep g st x) hstep.1
    refine ⟨ihr.1, ?_, ?_⟩
    · rintro (h | h)
      · rcases List.mem_cons.mp h with h1 | h2
        · exact ihr.2.1 (Or.inr (hstep.2.2.2.1 h1.symm))
        · exact ihr.2.1 (Or.inl h2)
      · exact ihr.2.1 (Or.inr (hstep.2.1 h))
    · rintro (h | h)
      · rcases List.mem_cons.mp h with h1 | h2
        · exact ihr.2.2 (Or.inr (hstep.2.2.2.2 h1.symm))
        · exact ihr.2.2 (Or.inl h2)
      · exact ihr.2.2 (Or.inr (hstep.2.2.1 h))

/-- C7: for a policy file whose `group` references name exactly the two
distinct groups A and B, where the server already has an identifier for A
and none for B (but yields one for B after creation), `create_groups_file`
issues exactly one `createGroup` call - for B -, resolves each of A and B
exactly once (duplicate references are skipped), records both identifier
pairs, and writes both (idA, A) and (idB, B) lines to the companion `groups`
mapping file, raising nothing during resolution. -/
theorem two_groups_one_creation (g : GerritGroups) (gitAddStatus : Bool → Int)
    (preexists : Bool) (aclLines : List String) (A B idA idB : String)
    (hAB : A ≠ B)
    (hAmem : A ∈ aclLines.filterMap matchGroupLine)
    (hBmem : B ∈ aclLines.filterMap matchGroupLine)
    (hOnly : ∀ x ∈ aclLines.filterMap matchGroupLine, x = A ∨ x = B)
    (hA : g.getGroupUUID A = some idA)
    (hB : g.getGroupUUID B = none)
    (hB2 : g.afterCreate B = some idB) :
    (create_groups_file g gitAddStatus preexists aclLines).state.creates = [B] ∧
    (A, idA) ∈ (create_groups_file g gitAddStatus preexists aclLines).state.uuids ∧
    (B, idB) ∈ (create_groups_file g gitAddStatus preexists aclLines).state.uuids ∧
    (∃ pairs, (create_groups_file g gitAddStatus preexists aclLines).fileWritten =
        some pairs ∧ (idA, A) ∈ pairs ∧ (idB, B) ∈ pairs) ∧
    ((create_groups_file g gitAddStatus preexists aclLines).state.resolutions = [A, B] ∨
      (create_groups_file g gitAddStatus preexists aclLines).state.resolutions = [B, A]) ∧
    (create_groups_file g gitAddStatus preexists aclLines).state.raised = false := by
  have hInv := resolveFold_invAB g A idA B idB hAB hA hB hB2
    (aclLines.filterMap matchGroupLine) hOnly ⟨[], [], [], [], false⟩ (Or.inl rfl)
  have hseenA : seenGroup (resolveGroups g (aclLines.filterMap matchGroupLine)) A = true :=
    hInv.2.1 (Or.inl hAmem)
  have hseenB : seenGroup (resolveGroups g (aclLines.filterMap matchGroupLine)) B = true :=
    hInv.2.2 (Or.inl hBmem)
  have hcase : resolveInvAB A idA B idB
      (resolveGroups g (aclLines.filterMap matchGroupLine)) := hInv.1
  rcases hcase with h | h | h | h | h
  · rw [h] at hseenA
    simp [seenGroup] at hseenA
  · rw [h] at hseenB
    simp [seenGroup, hAB] at hseenB
  · rw [h] at hseenA
    simp [seenGroup, hAB.symm] at hseenA
  · refine ⟨?_, ?_, ?_, ?_, ?_, ?_⟩ <;>
      simp [create_groups_file, h]
  · refine ⟨?_, ?_, ?_, ?_, ?_, ?_⟩ <;>
      simp [create_groups_file, h]

/-- Concrete policy file lines referencing admins twice and devs once. -/
def aclLinesW : List String :=
  [("\tpush = group admins"), ("\tread = group devs"), ("\tread = group admins")]

/-- Concrete Gerrit group API: admins already has an identifier, devs gains
one only after creation. -/
def gerritTwoGroups : GerritGroups :=
  ⟨fun s => if s = ("admins") then some ("uuid-a") else none,
   fun s => if s = ("devs") then some ("uuid-b") else none⟩

theorem two_groups_one_creation_witness :
    (create_groups_file gerritTwoGroups (fun _ => 0) false aclLinesW).state.creates =
      [("devs")] ∧
    (("admins"), ("uuid-a")) ∈
      (create_groups_file gerritTwoGroups (fun _ => 0) false aclLinesW).state.uuids ∧
    (("devs"), ("uuid-b")) ∈
      (create_groups_file gerritTwoGroups (fun _ => 0) false aclLinesW).state.uuids ∧
    (∃ pairs, (create_groups_file gerritTwoGroups (fun _ => 0) false aclLinesW).fileWritten =
        some pairs ∧ (("uuid-a"), ("admins")) ∈ pairs ∧ (("uuid-b"), ("devs")) ∈ pairs) ∧
    ((create_groups_file gerritTwoGroups (fun _ => 0) false aclLinesW).state.resolutions =
        [("admins"), ("devs")] ∨
      (create_groups_file gerritTwoGroups (fun _ => 0) false aclLinesW).state.resolutions =
        [("devs"), ("admins")]) ∧
    (create_groups_file gerritTwoGroups (fun _ => 0) false aclLinesW).state.raised = false :=
  two_groups_one_creation gerritTwoGroups (fun _ => 0) false aclLinesW
    ("admins") ("devs") ("uuid-a") ("uuid-b")
    (by decide) (by decide) (by decide) (by decide) (by decide) (by decide) (by decide)
